import Mathlib

/-!
Shallow embedding of `src/ai_models/checkpoint.py`: the checkpoint
introspector built from `FakeStorage`, `UnpicklerWrapper.persistent_load`,
`tidy` and `peek`.
-/

namespace Ckpt

/-- Python renders `str(type(x))` for an instance of class `module.Name`
as the string `<class 'module.Name'>`.  This is the rendering `tidy`
produces on line 45 of `checkpoint.py` (`return str(type(x))`). -/
def typeStr (mod nm : String) : String :=
  "<class \x27" ++ mod ++ "." ++ nm ++ "\x27>"

/-- `str(type(FakeStorage()))` — the string every `FakeStorage` collapses to. -/
def fakeStorageStr : String := typeStr "ai_models.checkpoint" "FakeStorage"

/-- The object graph produced by the unpickler, as `tidy` sees it
(`checkpoint.py` lines 29-45).  `placeholder` models a `FakeStorage`
instance: a dtype tag plus the length of its `_untyped_storage`; `obj`
models any other object, carrying the module- and name-qualified class
identity that `str(type(x))` renders. -/
inductive Node where
  | none
  | int (n : Int)
  | float (q : Rat)
  | str (s : String)
  | bool (b : Bool)
  | seq (xs : List Node)
  | tup (xs : List Node)
  | map (es : List (Node × Node))
  | placeholder (dtypeTag : String) (storageLen : Nat)
  | obj (mod nm : String)

mutual

/-- `tidy` from `checkpoint.py` lines 29-45.  Dict comprehension on line 30
is `{k: tidy(v) for k, v in x.items()}`: the keys are copied unchanged,
only the values are tidied. -/
def tidy : Node → Node
  | .map es => .map (tidyPairs es)
  | .seq xs => .seq (tidyList xs)
  | .tup xs => .tup (tidyList xs)
  | .none => .none
  | .int n => .int n
  | .float q => .float q
  | .str s => .str s
  | .bool b => .bool b
  | .placeholder _ _ => .str fakeStorageStr
  | .obj m n => .str (typeStr m n)

/-- `[tidy(v) for v in x]` (lines 33-34 and 36-37). -/
def tidyList : List Node → List Node
  | [] => []
  | x :: xs => tidy x :: tidyList xs

/-- `{k: tidy(v) for k, v in x.items()}` (line 30): keys pass through. -/
def tidyPairs : List (Node × Node) → List (Node × Node)
  | [] => []
  | (k, v) :: rest => (k, tidy v) :: tidyPairs rest

end

theorem tidyList_eq_map (xs : List Node) : tidyList xs = xs.map tidy := by
  induction xs with
  | nil => rfl
  | cons x xs ih => simp [tidyList, ih]

theorem tidyPairs_eq_map (es : List (Node × Node)) :
    tidyPairs es = es.map (fun kv => (kv.1, tidy kv.2)) := by
  induction es with
  | nil => rfl
  | cons kv rest ih => cases kv; simp [tidyPairs, ih]

/-- The arguments carried by a persistent-id record in a torch checkpoint
stream: a storage kind, an element-type tag, and the size of the referenced
buffer.  `UnpicklerWrapper.persistent_load` receives this as `pid`. -/
structure Pid where
  storageKind : String
  elementTypeTag : String
  sizeHint : Nat

/-- A `FakeStorage()` instance (`checkpoint.py` lines 13-18): its `dtype`
is always `torch.float32` and its `_untyped_storage` is
`torch.UntypedStorage(0)`, a zero-length buffer. -/
def FakeStorage : Node := Node.placeholder "torch.float32" 0

/-- `UnpicklerWrapper.persistent_load` (lines 25-26): ignores `pid`
entirely and returns a fresh `FakeStorage()`. -/
def persistent_load (_pid : Pid) : Node := FakeStorage

/-- Bytes of backing storage held by a node: the `_untyped_storage` length
for a `FakeStorage` placeholder, nothing for anything else. -/
def storageBytes : Node → Nat
  | .placeholder _ len => len
  | _ => 0

/-- Errors `peek` can surface: the zipfile `KeyError` for a missing member
(the spec's `EntryNotFoundError`), and the unpickler's framing /
unsupported-opcode failures. -/
inductive PeekErr where
  | entryNotFound (entry : String)
  | malformedStream
  | unsupportedInstruction
deriving DecidableEq

/-- The canonical entry name `peek` opens (`checkpoint.py` line 50). -/
def canonicalEntry : String := "archive/data.pkl"

/-- A zip archive, each member abstracted to what
`UnpicklerWrapper(...).load()` yields on its bytes: either the decoded
object graph or a deserialization error. -/
structure Archive where
  entries : List (String × Except PeekErr Node)

/-- Member lookup in the zip directory (`f.open(name)` succeeds iff a
member of that name exists). -/
def findEntry (a : Archive) (name : String) : Option (Except PeekErr Node) :=
  (a.entries.find? (fun e => e.1 == name)).map (fun e => e.2)

/-- `peek` (`checkpoint.py` lines 48-52): open the canonical entry — a
missing member raises the zipfile KeyError — unpickle it, and apply `tidy`
twice (`x = tidy(unpickler.load()); return tidy(x)`). -/
def peek (a : Archive) : Except PeekErr Node :=
  match findEntry a canonicalEntry with
  | Option.none => Except.error (PeekErr.entryNotFound canonicalEntry)
  | Option.some (Except.error e) => Except.error e
  | Option.some (Except.ok g) => Except.ok (tidy (tidy g))

/-- The single-pass variant of `peek`: one application of `tidy`, as the
spec's sanitizer contract describes. -/
def peekOnce (a : Archive) : Except PeekErr Node :=
  match findEntry a canonicalEntry with
  | Option.none => Except.error (PeekErr.entryNotFound canonicalEntry)
  | Option.some (Except.error e) => Except.error e
  | Option.some (Except.ok g) => Except.ok (tidy g)

/-- How many archive file handles the process currently holds open. -/
structure FileState where
  openContainers : Nat

/-- Entering `with zipfile.ZipFile(path, "r") as f` opens the container. -/
def openContainer (s : FileState) : FileState :=
  { openContainers := s.openContainers + 1 }

/-- Leaving the `with` block — normally or through an exception — closes it. -/
def closeContainer (s : FileState) : FileState :=
  { openContainers := s.openContainers - 1 }

/-- `peek` with the `with`-statement's resource effect made explicit: the
container is opened once and, on every exit path (missing entry, unpickling
error, or successful return), closed before control returns. -/
def peekRun (a : Archive) (s : FileState) : Except PeekErr Node × FileState :=
  let s1 := openContainer s
  match findEntry a canonicalEntry with
  | Option.none =>
      (Except.error (PeekErr.entryNotFound canonicalEntry), closeContainer s1)
  | Option.some (Except.error e) => (Except.error e, closeContainer s1)
  | Option.some (Except.ok g) => (Except.ok (tidy (tidy g)), closeContainer s1)

mutual

/-- Membership in the spec's `SanitizedValue` grammar: mappings, sequences,
tuples, `None`, ints, floats, strings and bools only — no placeholder or
opaque-object node anywhere, keys included. -/
def isSan : Node → Bool
  | .none => true
  | .int _ => true
  | .float _ => true
  | .str _ => true
  | .bool _ => true
  | .seq xs => isSanList xs
  | .tup xs => isSanList xs
  | .map es => isSanPairs es
  | .placeholder _ _ => false
  | .obj _ _ => false

/-- All members of the list lie in the `SanitizedValue` grammar. -/
def isSanList : List Node → Bool
  | [] => true
  | x :: xs => isSan x && isSanList xs

/-- All keys and values of the entry list lie in the grammar. -/
def isSanPairs : List (Node × Node) → Bool
  | [] => true
  | (k, v) :: rest => isSan k && isSan v && isSanPairs rest

end

/-- Primitive or `None` — a node `tidy` returns unchanged and that already
lies in the `SanitizedValue` grammar. -/
def isPrim : Node → Bool
  | .none => true
  | .int _ => true
  | .float _ => true
  | .str _ => true
  | .bool _ => true
  | _ => false

mutual

/-- Every mapping key anywhere in the graph is a primitive or `None`. -/
def primKeys : Node → Bool
  | .map es => primKeysPairs es
  | .seq xs => primKeysList xs
  | .tup xs => primKeysList xs
  | _ => true

/-- `primKeys` over a list of children. -/
def primKeysList : List Node → Bool
  | [] => true
  | x :: xs => primKeys x && primKeysList xs

/-- `primKeys` over mapping entries: each key primitive, each value
recursively checked. -/
def primKeysPairs : List (Node × Node) → Bool
  | [] => true
  | (k, v) :: rest => isPrim k && primKeys v && primKeysPairs rest

end

mutual

/-- Structural equality test on nodes, modelling Python `==` on the values
dict keys can take. -/
def nodeBeq : Node → Node → Bool
  | .none, .none => true
  | .int a, .int b => a == b
  | .float a, .float b => a == b
  | .str a, .str b => a == b
  | .bool a, .bool b => a == b
  | .seq a, .seq b => nodeBeqList a b
  | .tup a, .tup b => nodeBeqList a b
  | .map a, .map b => nodeBeqPairs a b
  | .placeholder t1 l1, .placeholder t2 l2 => t1 == t2 && l1 == l2
  | .obj m1 n1, .obj m2 n2 => m1 == m2 && n1 == n2
  | _, _ => false

/-- Elementwise `nodeBeq` on lists. -/
def nodeBeqList : List Node → List Node → Bool
  | [], [] => true
  | x :: xs, y :: ys => nodeBeq x y && nodeBeqList xs ys
  | _, _ => false

/-- Elementwise `nodeBeq` on entry lists. -/
def nodeBeqPairs : List (Node × Node) → List (Node × Node) → Bool
  | [], [] => true
  | (k1, v1) :: r1, (k2, v2) :: r2 =>
      nodeBeq k1 k2 && nodeBeq v1 v2 && nodeBeqPairs r1 r2
  | _, _ => false

end

/-- Dict insertion with Python semantics: overwriting an equal key keeps
the original key object and its position (last write wins on the value),
a fresh key is appended at the end. -/
def dictInsert : List (Node × Node) → Node → Node → List (Node × Node)
  | [], k, v => [(k, v)]
  | (k0, v0) :: rest, k, v =>
      if nodeBeq k0 k then (k0, v) :: rest
      else (k0, v0) :: dictInsert rest k v

mutual

/-- Modelled from the spec: the sanitizer the spec's Mapping clause
describes — `each key and value independently sanitized; if two sanitized
keys collide the later entry overwrites the earlier`.  It differs from the
source `tidy` only on mapping keys; written here to compare the two. -/
def specTidy : Node → Node
  | .map es => .map (specBuild [] es)
  | .seq xs => .seq (specTidyList xs)
  | .tup xs => .tup (specTidyList xs)
  | .none => .none
  | .int n => .int n
  | .float q => .float q
  | .str s => .str s
  | .bool b => .bool b
  | .placeholder _ _ => .str fakeStorageStr
  | .obj m n => .str (typeStr m n)

/-- `specTidy` mapped over a list of children. -/
def specTidyList : List Node → List Node
  | [] => []
  | x :: xs => specTidy x :: specTidyList xs

/-- Rebuild a mapping left to right, sanitizing keys and values and
inserting with last-write-wins semantics. -/
def specBuild : List (Node × Node) → List (Node × Node) → List (Node × Node)
  | acc, [] => acc
  | acc, (k, v) :: rest => specBuild (dictInsert acc (specTidy k) (specTidy v)) rest

end

/-- Keys of a mapping node, in order. -/
def mapKeys : Node → List Node
  | .map es => es.map Prod.fst
  | _ => []

/-- Values of a mapping node, in order. -/
def mapVals : Node → List Node
  | .map es => es.map Prod.snd
  | _ => []

/-- Object-graph nodes with explicit sharing: `ref i` points at slot `i`
of an arena, the shape the unpickler's memo table leaves behind.  A
self-referential value — `d = {}; d["x"] = d` — is a `map` whose entry
refers back to its own slot. -/
inductive GNode where
  | none
  | int (n : Int)
  | float (q : Rat)
  | str (s : String)
  | bool (b : Bool)
  | seq (xs : List GNode)
  | tup (xs : List GNode)
  | map (es : List (GNode × GNode))
  | placeholder (dtypeTag : String) (storageLen : Nat)
  | obj (mod nm : String)
  | ref (i : Nat)

mutual

/-- `tidy` run over an arena-backed graph with a recursion-depth budget:
each nested call costs one unit of `fuel`, exactly as each Python call of
`tidy` costs one stack frame, and exhausting the budget yields
`Option.none` — the model of the interpreter's recursion limit.  `tidy`
itself has no cycle check, so a back-reference is simply followed. -/
def tidyG (arena : List GNode) : Nat → GNode → Option GNode
  | 0, _ => Option.none
  | fuel + 1, .ref i =>
      match arena.get? i with
      | Option.some n => tidyG arena fuel n
      | Option.none => Option.none
  | fuel + 1, .map es => (tidyGPairs arena fuel es).map GNode.map
  | fuel + 1, .seq xs => (tidyGList arena fuel xs).map GNode.seq
  | fuel + 1, .tup xs => (tidyGList arena fuel xs).map GNode.tup
  | _ + 1, .none => Option.some GNode.none
  | _ + 1, .int n => Option.some (GNode.int n)
  | _ + 1, .float q => Option.some (GNode.float q)
  | _ + 1, .str s => Option.some (GNode.str s)
  | _ + 1, .bool b => Option.some (GNode.bool b)
  | _ + 1, .placeholder _ _ => Option.some (GNode.str fakeStorageStr)
  | _ + 1, .obj m n => Option.some (GNode.str (typeStr m n))

/-- `[tidy(v) for v in x]` under the fuel budget. -/
def tidyGList (arena : List GNode) : Nat → List GNode → Option (List GNode)
  | _, [] => Option.some []
  | fuel, x :: xs =>
      match tidyG arena fuel x, tidyGList arena fuel xs with
      | Option.some y, Option.some ys => Option.some (y :: ys)
      | _, _ => Option.none

/-- `{k: tidy(v) for k, v in x.items()}` under the fuel budget: keys are
copied, values recursed into. -/
def tidyGPairs (arena : List GNode) :
    Nat → List (GNode × GNode) → Option (List (GNode × GNode))
  | _, [] => Option.some []
  | fuel, (k, v) :: rest =>
      match tidyG arena fuel v, tidyGPairs arena fuel rest with
      | Option.some w, Option.some r => Option.some ((k, w) :: r)
      | _, _ => Option.none

end

/-- The arena of the self-referential dict `d = {}; d["x"] = d`: slot 0
holds a mapping whose sole value is a back-reference to slot 0. -/
def cycArena : List GNode := [GNode.map [(GNode.str "x", GNode.ref 0)]]

/-- `tidy` diverges on this node: no recursion-depth budget suffices. -/
def TidyDiverges (arena : List GNode) (g : GNode) : Prop :=
  ∀ fuel : Nat, tidyG arena fuel g = Option.none

theorem cyc_no_fuel (f : Nat) :
    tidyG cycArena f (GNode.ref 0) = Option.none ∧
    tidyG cycArena f (GNode.map [(GNode.str "x", GNode.ref 0)]) = Option.none := by
  induction f with
  | zero => constructor <;> simp [tidyG]
  | succ f ih =>
      refine ⟨?_, ?_⟩
      · simpa [tidyG, cycArena] using ih.2
      · simp [tidyG, tidyGPairs, ih.1]

theorem tidyList_congr {xs : List Node}
    (h : ∀ x ∈ xs, tidy (tidy x) = tidy x) :
    tidyList (tidyList xs) = tidyList xs := by
  induction xs with
  | nil => rfl
  | cons x xs ih =>
      simp only [tidyList]
      rw [h x (by simp), ih (fun y hy => h y (by simp [hy]))]

theorem tidyPairs_congr {es : List (Node × Node)}
    (h : ∀ kv ∈ es, tidy (tidy kv.2) = tidy kv.2) :
    tidyPairs (tidyPairs es) = tidyPairs es := by
  induction es with
  | nil => rfl
  | cons kv rest ih =>
      obtain ⟨k, v⟩ := kv
      simp only [tidyPairs]
      rw [h (k, v) (by simp), ih (fun y hy => h y (by simp [hy]))]

theorem tidy_idem (g : Node) : tidy (tidy g) = tidy g := by
  cases g with
  | map es =>
      simp only [tidy]
      rw [tidyPairs_congr (fun kv h => tidy_idem kv.2)]
  | seq xs =>
      simp only [tidy]
      rw [tidyList_congr (fun x h => tidy_idem x)]
  | tup xs =>
      simp only [tidy]
      rw [tidyList_congr (fun x h => tidy_idem x)]
  | none => rfl
  | int n => rfl
  | float q => rfl
  | str s => rfl
  | bool b => rfl
  | placeholder t l => rfl
  | obj m n => rfl
termination_by sizeOf g
decreasing_by
all_goals
  have h1 := List.sizeOf_lt_of_mem h
  first
    | (obtain ⟨k, v⟩ := kv
       simp only [Prod.mk.sizeOf_spec] at h1
       simp only [Node.map.sizeOf_spec]
       omega)
    | (simp only [Node.seq.sizeOf_spec]; omega)
    | (simp only [Node.tup.sizeOf_spec]; omega)

theorem isSan_of_isPrim {k : Node} (h : isPrim k = true) : isSan k = true := by
  cases k <;> simp_all [isPrim, isSan]

theorem isSanList_iff {xs : List Node} :
    isSanList xs = true ↔ ∀ x ∈ xs, isSan x = true := by
  induction xs with
  | nil => simp [isSanList]
  | cons x xs ih => simp [isSanList, Bool.and_eq_true, ih]

theorem isSanPairs_iff {es : List (Node × Node)} :
    isSanPairs es = true ↔ ∀ kv ∈ es, isSan kv.1 = true ∧ isSan kv.2 = true := by
  induction es with
  | nil => simp [isSanPairs]
  | cons kv rest ih =>
      obtain ⟨k, v⟩ := kv
      simp [isSanPairs, Bool.and_eq_true, ih, and_assoc]

theorem primKeysList_iff {xs : List Node} :
    primKeysList xs = true ↔ ∀ x ∈ xs, primKeys x = true := by
  induction xs with
  | nil => simp [primKeysList]
  | cons x xs ih => simp [primKeysList, Bool.and_eq_true, ih]

theorem primKeysPairs_iff {es : List (Node × Node)} :
    primKeysPairs es = true ↔
      ∀ kv ∈ es, isPrim kv.1 = true ∧ primKeys kv.2 = true := by
  induction es with
  | nil => simp [primKeysPairs]
  | cons kv rest ih =>
      obtain ⟨k, v⟩ := kv
      simp [primKeysPairs, Bool.and_eq_true, ih, and_assoc]

theorem tidy_isSan (g : Node) (h : primKeys g = true) : isSan (tidy g) = true := by
  cases g with
  | map es =>
      simp only [tidy, isSan]
      rw [tidyPairs_eq_map, isSanPairs_iff]
      intro kv hkv
      obtain ⟨kv0, hkv0, hkv1⟩ := List.mem_map.mp hkv
      obtain ⟨k0, v0⟩ := kv0
      subst hkv1
      have hp := (primKeysPairs_iff.mp (by simpa [primKeys] using h)) (k0, v0) hkv0
      exact ⟨isSan_of_isPrim hp.1, tidy_isSan v0 hp.2⟩
  | seq xs =>
      simp only [tidy, isSan]
      rw [tidyList_eq_map, isSanList_iff]
      intro y hy
      obtain ⟨x, hx1, hx2⟩ := List.mem_map.mp hy
      subst hx2
      exact tidy_isSan x ((primKeysList_iff.mp (by simpa [primKeys] using h)) x hx1)
  | tup xs =>
      simp only [tidy, isSan]
      rw [tidyList_eq_map, isSanList_iff]
      intro y hy
      obtain ⟨x, hx1, hx2⟩ := List.mem_map.mp hy
      subst hx2
      exact tidy_isSan x ((primKeysList_iff.mp (by simpa [primKeys] using h)) x hx1)
  | none => rfl
  | int n => rfl
  | float q => rfl
  | str s => rfl
  | bool b => rfl
  | placeholder t l => rfl
  | obj m n => rfl
termination_by sizeOf g
decreasing_by
all_goals
  subst g
  simp only [Node.map.sizeOf_spec, Node.seq.sizeOf_spec, Node.tup.sizeOf_spec]
  first
    | (have h1 := List.sizeOf_lt_of_mem hkv0
       simp only [Prod.mk.sizeOf_spec] at h1
       omega)
    | (have h1 := List.sizeOf_lt_of_mem hx1
       omega)

theorem tidy_map_keys (es : List (Node × Node)) :
    mapKeys (tidy (Node.map es)) = es.map Prod.fst := by
  simp only [tidy, tidyPairs_eq_map, mapKeys, List.map_map]
  rfl

theorem tidy_map_vals (es : List (Node × Node)) :
    mapVals (tidy (Node.map es)) = (es.map Prod.snd).map tidy := by
  simp only [tidy, tidyPairs_eq_map, mapVals, List.map_map]
  rfl

/-- Character-list prefix test, used to decide whether one rendered string
occurs inside another. -/
def isPre (needle hay : List Char) : Bool :=
  match needle, hay with
  | [], _ => true
  | _ :: _, [] => false
  | c :: cs, d :: ds => c == d && isPre cs ds

/-- Does `needle` occur as a contiguous substring of `hay`? -/
def hasSub (needle hay : List Char) : Bool :=
  match hay with
  | [] => isPre needle []
  | _ :: ds => isPre needle hay || hasSub needle ds

/-- Claim C1: the deserializer executes a resource-reference instruction by
calling `persistent_load`, which builds the same `FakeStorage` placeholder
for every persistent id — in particular for every `sizeHint` — carrying a
dtype tag and a zero-byte backing.  No allocation proportional to
`sizeHint` occurs, nothing outside the stream is consulted, and the result
is independent of the `sizeHint` value. -/
theorem C1_persistent_load_sizeHint_independent :
    ∀ p q : Pid,
      persistent_load p = FakeStorage ∧
      persistent_load p = persistent_load q ∧
      storageBytes (persistent_load p) = 0 :=
  fun _ _ => ⟨rfl, rfl, rfl⟩

/-- Claim C2 (code bug): `tidy` keeps no visiting-set, so on the
self-referential mapping built by `d = dict(); d["x"] = d` — arena slot 0
holding a mapping whose value refers back to slot 0 — it re-enters the same
node at every recursion depth and never returns (`RecursionError` in
Python), instead of substituting the sentinel the spec requires. -/
theorem C2_tidy_diverges_on_cycle : TidyDiverges cycArena (GNode.ref 0) :=
  fun fuel => (cyc_no_fuel fuel).1

/-- Claim C3 counterexample: a placeholder tagged `float32` does not
sanitize to a rendering of that tag.  The output is the fixed
`FakeStorage` class string: it coincides with the output for a
`float64`-tagged placeholder, differs from the canonical rendering
`"float32-storage"`, and does not even contain `"float32"`. -/
theorem C3_counterexample :
    tidy (Node.placeholder "float32" 0) = Node.str fakeStorageStr ∧
    tidy (Node.placeholder "float32" 0) = tidy (Node.placeholder "float64" 0) ∧
    fakeStorageStr ≠ "float32-storage" ∧
    hasSub "float32".data fakeStorageStr.data = false :=
  ⟨rfl, rfl, by decide, by decide⟩

/-- Claim C3 (amended): every resource placeholder, whatever its element
type tag, sanitizes to the fixed string rendering the `FakeStorage` class —
a string, never a numeric value. -/
theorem C3_placeholder_collapses_to_string :
    ∀ (tag : String) (len : Nat),
      tidy (Node.placeholder tag len) = Node.str fakeStorageStr ∧
      (∀ n : Int, tidy (Node.placeholder tag len) ≠ Node.int n) ∧
      (∀ q : Rat, tidy (Node.placeholder tag len) ≠ Node.float q) := by
  intro tag len
  refine ⟨rfl, ?_, ?_⟩ <;> intro x hx <;> simp [tidy] at hx

/-- An archive whose canonical entry decodes to a single object of the
unrecognized class `pkg.Widget`. -/
def widgetArchive : Archive :=
  ⟨[(canonicalEntry, Except.ok (Node.obj "pkg" "Widget"))]⟩

/-- Claim C4 counterexample: peeking the archive holding an object of the
unrecognized type `pkg.Widget` returns the Python type rendering
`<class ...>`, not the bare string `"pkg.Widget"` the claim states. -/
theorem C4_counterexample :
    peek widgetArchive = Except.ok (Node.str (typeStr "pkg" "Widget")) ∧
    typeStr "pkg" "Widget" ≠ "pkg.Widget" :=
  ⟨rfl, by decide⟩

/-- Claim C4 (amended): a constructed value of any type the deserializer
does not specifically recognize degrades without failing: `peek` returns at
its position the string `str(type(x))`, carrying the module- and
name-qualified type identity in Python class rendering. -/
theorem C4_unknown_type_degrades :
    ∀ mod nm : String,
      peek ⟨[(canonicalEntry, Except.ok (Node.obj mod nm))]⟩ =
        Except.ok (Node.str (typeStr mod nm)) :=
  fun _ _ => rfl

/-- Claim C5: sanitization is idempotent — `tidy (tidy g) = tidy g` for
every object graph — so the double application performed by `peek` equals
the single-pass reduction, and `peek`, a function of the archive, returns
structurally equal results when called twice on the same archive. -/
theorem C5_sanitize_idempotent :
    (∀ g : Node, tidy (tidy g) = tidy g) ∧
    (∀ a : Archive, peek a = peekOnce a) := by
  refine ⟨tidy_idem, ?_⟩
  intro a
  unfold peek peekOnce
  cases findEntry a canonicalEntry with
  | none => rfl
  | some r =>
      cases r with
      | error e => rfl
      | ok g => simp [tidy_idem g]

/-- A mapping whose sole key is an object of an unrecognized class. -/
def objKeyEntries : List (Node × Node) := [(Node.obj "pkg" "A", Node.int 1)]

/-- Claim C6 counterexample: on a mapping keyed by an opaque object, `tidy`
returns the key unsanitized, while the mapping clause of the spec (modelled
by `specTidy`) sanitizes the key to its type string — the two disagree. -/
theorem C6_counterexample :
    tidy (Node.map objKeyEntries) =
      Node.map [(Node.obj "pkg" "A", Node.int 1)] ∧
    specTidy (Node.map objKeyEntries) =
      Node.map [(Node.str (typeStr "pkg" "A"), Node.int 1)] ∧
    tidy (Node.map objKeyEntries) ≠ specTidy (Node.map objKeyEntries) := by
  refine ⟨rfl, rfl, ?_⟩
  simp [tidy, specTidy, tidyPairs, specBuild, dictInsert]

/-- Claim C6 (amended): `tidy` rebuilds a mapping preserving the original
key insertion order with each value independently sanitized, but the keys
pass through unsanitized; because the keys are unchanged, sanitization
introduces no key collisions — pairwise distinct keys stay pairwise
distinct and no entry overwrites another. -/
theorem C6_mapping_keys_unchanged (es : List (Node × Node))
    (h : (es.map Prod.fst).Nodup) :
    mapKeys (tidy (Node.map es)) = es.map Prod.fst ∧
    mapVals (tidy (Node.map es)) = (es.map Prod.snd).map tidy ∧
    (mapKeys (tidy (Node.map es))).Nodup := by
  refine ⟨tidy_map_keys es, tidy_map_vals es, ?_⟩
  rw [tidy_map_keys es]
  exact h

/-- Witness for the amended C6 at a two-entry mapping with distinct keys. -/
theorem C6_mapping_keys_unchanged_witness :
    (([(Node.str "a", Node.int 1), (Node.str "b", Node.int 2)]).map
        Prod.fst).Nodup ∧
    (mapKeys (tidy (Node.map [(Node.str "a", Node.int 1),
          (Node.str "b", Node.int 2)])) =
        [(Node.str "a", Node.int 1), (Node.str "b", Node.int 2)].map Prod.fst ∧
      mapVals (tidy (Node.map [(Node.str "a", Node.int 1),
          (Node.str "b", Node.int 2)])) =
        ([(Node.str "a", Node.int 1),
            (Node.str "b", Node.int 2)].map Prod.snd).map tidy ∧
      (mapKeys (tidy (Node.map [(Node.str "a", Node.int 1),
          (Node.str "b", Node.int 2)]))).Nodup) :=
  ⟨by simp, C6_mapping_keys_unchanged _ (by simp)⟩

/-- The graph encoded by the structural-fidelity test stream. -/
def fidelityGraph : Node :=
  Node.map [(Node.str "a",
    Node.seq [Node.int 1, Node.float (5 / 2 : Rat), Node.str "x", Node.none,
      Node.tup [Node.bool true, Node.bool false]])]

/-- An archive whose canonical entry decodes to `fidelityGraph`. -/
def fidelityArchive : Archive := ⟨[(canonicalEntry, Except.ok fidelityGraph)]⟩

/-- Claim C7: peeking the archive that encodes a mapping from `"a"` to the
sequence of 1, 2.5, `"x"`, None and the tuple (True, False) returns exactly
that shape: primitives and None unchanged, order preserved, and the tuple
node distinct from the sequence node. -/
theorem C7_structural_fidelity :
    peek fidelityArchive = Except.ok fidelityGraph ∧
    Node.tup [Node.bool true, Node.bool false] ≠
      Node.seq [Node.bool true, Node.bool false] :=
  ⟨rfl, by simp⟩

/-- Claim C8: on every archive lacking the canonical entry
`archive/data.pkl`, `peek` fails with precisely the missing-entry error
carrying that entry name — not any other error of the taxonomy. -/
theorem C8_missing_entry (a : Archive)
    (h : findEntry a canonicalEntry = Option.none) :
    peek a = Except.error (PeekErr.entryNotFound canonicalEntry) := by
  simp [peek, h]

/-- Witness for C8 at an archive holding only an unrelated entry. -/
theorem C8_missing_entry_witness :
    findEntry ⟨[("other", Except.ok Node.none)]⟩ canonicalEntry =
      Option.none ∧
    peek ⟨[("other", Except.ok Node.none)]⟩ =
      Except.error (PeekErr.entryNotFound canonicalEntry) :=
  ⟨rfl, C8_missing_entry _ rfl⟩

/-- Claim C9: on every exit path of `peek` — successful return, missing
entry, or either deserialization error — the container opened by the
`with`-statement is released before control returns: the open-handle count
is restored, and the returned value is exactly what `peek` computes. -/
theorem C9_container_released :
    ∀ (a : Archive) (s : FileState),
      (peekRun a s).2.openContainers = s.openContainers ∧
      (peekRun a s).1 = peek a := by
  intro a s
  unfold peekRun peek openContainer closeContainer
  cases findEntry a canonicalEntry with
  | none => simp
  | some r =>
      cases r with
      | error e => simp
      | ok g => simp

/-- Claim C10: on every graph whose mapping keys are primitives or None,
the value `tidy` returns lies in the `SanitizedValue` grammar — mappings,
sequences, tuples, None, ints, floats, strings, bools — with no placeholder
or opaque object anywhere in the output. -/
theorem C10_output_sanitized (g : Node) (h : primKeys g = true) :
    isSan (tidy g) = true :=
  tidy_isSan g h

/-- Witness for C10 at a mapping from a string key to a storage
placeholder. -/
theorem C10_output_sanitized_witness :
    primKeys (Node.map [(Node.str "k", Node.placeholder "f" 0)]) = true ∧
    isSan (tidy (Node.map [(Node.str "k", Node.placeholder "f" 0)])) = true :=
  ⟨rfl, C10_output_sanitized _ rfl⟩

end Ckpt
